import Mathlib

/-!
Shallow embedding of the BLISS narrowband drift-search pipeline.

Embedding conventions used throughout this file:
* C++ `double` / `float` quantities are modelled as exact rationals (`ℚ`);
  floating-point literals such as `1e-6`, `0.01` or `50` are embedded as the
  rational number they denote in the source text.
* C++ machine integers (`int`, `int64_t`) are modelled as `ℤ` (or `ℕ` where the
  source value is a size); overflow is out of scope for the studied claims.
* `std::list<T>` / `std::vector<T>` are modelled as `List T`.
* Functions that throw are modelled with `Except String`.
* The `rfi` flag-count container (`std::map<flag_values, uint8_t>` accessed with
  the defaulting `operator[]`) is modelled as a record holding one count per
  flag value, i.e. as the total function the defaulting access realizes.
-/

namespace Bliss

/-- Per-flag RFI tallies of a hit, one counter per `flag_values` entry that the
pipeline writes (`core/flag_values.hpp`, `core/protohit.hpp`). -/
structure Rfi where
  filter_rolloff : ℕ
  low_spectral_kurtosis : ℕ
  high_spectral_kurtosis : ℕ
  magnitude : ℕ
  sigma_clip : ℕ
deriving DecidableEq, Repr, Inhabited

/-- The `hit` record of `core/hit.hpp`: a single-scan detection with physical
parameters. -/
structure Hit where
  start_freq_index : ℤ
  start_freq_MHz : ℚ
  start_time_sec : ℚ
  duration_sec : ℚ
  rate_index : ℤ
  drift_rate_Hz_per_sec : ℚ
  power : ℚ
  time_span_steps : ℤ
  integrated_channels : ℤ
  snr : ℚ
  bandwidth : ℚ
  binwidth : ℤ
  rfi_counts : Rfi
  coarse_channel_number : ℤ
deriving DecidableEq, Repr, Inhabited

/-- The `event` record of `core/event.hpp`: an aggregate over a list of hits. -/
structure Event where
  hits : List Hit
  starting_frequency_Hz : ℚ
  average_power : ℚ
  average_bandwidth : ℚ
  average_snr : ℚ
  average_drift_rate_Hz_per_sec : ℚ
  event_start_seconds : ℚ
  event_end_seconds : ℚ
deriving DecidableEq, Repr, Inhabited

/-- `seconds_per_day` constant of `event_search.cpp`. -/
def seconds_per_day : ℚ := 24 * 60 * 60

/-- `freq_localization_weight` constant (`0.01f`) of `event_search.cpp`. -/
def freq_localization_weight : ℚ := 1 / 100

/-- `drift_error_weight` constant (`10.0f`) of `event_search.cpp`. -/
def drift_error_weight : ℚ := 10

/-- `snr_difference_weight` constant (`0.0f`) of `event_search.cpp`. -/
def snr_difference_weight : ℚ := 0

/-- The `eps` constant (`1e-8`) of `event_search.cpp`, guarding the division in
the drift-difference normalization. -/
def distance_eps : ℚ := 1 / 100000000

/-- `first_sample_time` intermediate of `distance_func` in `event_search.cpp`. -/
def first_sample_time (a b : Hit) : ℚ :=
  min a.start_time_sec b.start_time_sec

/-- `last_sample_time` intermediate of `distance_func` in `event_search.cpp`.
Note that the source computes `max(a.start_time_sec + b.duration_sec,
b.start_time_sec + b.duration_sec)`: both operands use `b`'s duration. -/
def last_sample_time (a b : Hit) : ℚ :=
  max (a.start_time_sec + b.duration_sec) (b.start_time_sec + b.duration_sec)

/-- `rendezvous_time` intermediate of `distance_func` in `event_search.cpp`. -/
def rendezvous_time (a b : Hit) : ℚ :=
  (last_sample_time a b + first_sample_time a b) / 2

/-- Frequency of hit `x` projected to time `t` by the linear drift model used in
`distance_func`: `f(t) = start_freq_MHz * 1e6 + drift * (t - start_time)`. -/
def hit_rendezvous_frequency (x : Hit) (t : ℚ) : ℚ :=
  x.start_freq_MHz * 1000000 + x.drift_rate_Hz_per_sec * (t - x.start_time_sec)

/-- `distance_func` of `event_search.cpp`: the dissimilarity metric between two
hits.  (The source also computes a `power_difference` local that it never uses;
it is omitted here because it has no effect on the result.) -/
def distance_func (a b : Hit) : ℚ :=
  let snr_difference := |a.snr - b.snr|
  let drift_difference := |a.drift_rate_Hz_per_sec - b.drift_rate_Hz_per_sec| /
      (distance_eps + a.drift_rate_Hz_per_sec * a.drift_rate_Hz_per_sec +
       b.drift_rate_Hz_per_sec * b.drift_rate_Hz_per_sec)
  let drift_error := drift_difference * drift_difference
  let t := rendezvous_time a b
  let a_rendezvous_frequency := hit_rendezvous_frequency a t
  let b_rendezvous_frequency := hit_rendezvous_frequency b t
  let rendezvous_frequency_difference := |a_rendezvous_frequency - b_rendezvous_frequency|
  freq_localization_weight * rendezvous_frequency_difference +
    drift_error_weight * drift_error +
    snr_difference_weight * snr_difference

/-- Modelled from the spec (section 4.7 of the design document): the distance
formula exactly as the specification writes it,
`d(a,b) = 0.01 |fa - fb| + 10 ((drift_a - drift_b)^2 / (eps + drift_a^2 + drift_b^2))^2
        + 0 |snr_a - snr_b|`,
to be compared with `distance_func` as implemented by the code. -/
def spec_distance (a b : Hit) : ℚ :=
  let t := rendezvous_time a b
  1 / 100 * |hit_rendezvous_frequency a t - hit_rendezvous_frequency b t| +
    10 * (((a.drift_rate_Hz_per_sec - b.drift_rate_Hz_per_sec) ^ 2 /
      (distance_eps + a.drift_rate_Hz_per_sec ^ 2 + b.drift_rate_Hz_per_sec ^ 2)) ^ 2) +
    0 * |a.snr - b.snr|

/-- The `eps` constant (`1e-6`) of `filter_hits.cpp`, used for the zero-drift
comparison. -/
def filter_eps : ℚ := 1 / 1000000

/-- The `filter_options` record of `drift_search/filter_hits.hpp`. -/
structure FilterOptions where
  filter_zero_drift : Bool
  filter_sigmaclip : Bool
  minimum_percent_sigmaclip : ℚ
  filter_high_sk : Bool
  minimum_percent_high_sk : ℚ
  filter_low_sk : Bool
  maximum_percent_low_sk : ℚ
deriving DecidableEq, Repr, Inhabited

/-- The rejection lambda passed to `std::list::remove_if` in
`bliss::filter_hits` (`filter_hits.cpp`): `true` means the hit is removed. -/
def reject_hit (options : FilterOptions) (current_hit : Hit) : Bool :=
  if options.filter_zero_drift ∧ |current_hit.drift_rate_Hz_per_sec| < filter_eps then
    true
  else
    let abs_integrated : ℚ := |(current_hit.integrated_channels : ℚ)|
    if options.filter_sigmaclip ∧
        (current_hit.rfi_counts.sigma_clip : ℚ) < abs_integrated * options.minimum_percent_sigmaclip then
      true
    else if options.filter_high_sk ∧
        (current_hit.rfi_counts.high_spectral_kurtosis : ℚ) < abs_integrated * options.minimum_percent_high_sk then
      true
    else if options.filter_low_sk ∧
        (current_hit.rfi_counts.low_spectral_kurtosis : ℚ) > abs_integrated * options.maximum_percent_low_sk then
      true
    else
      false

/-- `bliss::filter_hits` on a `std::list<hit>` (`filter_hits.cpp`):
`remove_if` keeps, in order, exactly the hits the rejection lambda declines. -/
def filter_hits (hits : List Hit) (options : FilterOptions) : List Hit :=
  hits.filter (fun current_hit => ! reject_hit options current_hit)

/-- `std::round` / `std::lround` on an exact rational: round half away from
zero. -/
def cround (x : ℚ) : ℤ :=
  if 0 ≤ x then ⌊x + 1 / 2⌋ else ⌈x - 1 / 2⌉

/-- The `integrate_drifts_options` record of
`core/integrate_drifts_options.hpp`. -/
structure IntegrateDriftsOptions where
  desmear : Bool
  low_rate_Hz_per_sec : ℚ
  high_rate_Hz_per_sec : ℚ
  resolution : ℤ
deriving DecidableEq, Repr, Inhabited

/-- The `frequency_drift_plane::drift_rate` record of
`core/frequency_drift_plane.hpp`. -/
structure DriftRate where
  index_in_plane : ℤ
  drift_rate_slope : ℚ
  drift_rate_Hz_per_sec : ℚ
  drift_channels_span : ℤ
  desmeared_bins : ℤ
deriving DecidableEq, Repr, Inhabited

/-- `unit_drift_resolution` intermediate of `compute_drifts`
(`integrate_drifts.cpp`): `foff_Hz / ((time_steps - 1) * tsamp)`. -/
def unit_drift_resolution (time_steps : ℤ) (foff tsamp : ℚ) : ℚ :=
  foff * 1000000 / (((time_steps : ℚ) - 1) * tsamp)

/-- `search_resolution_Hz_sec` intermediate of `compute_drifts`. -/
def search_resolution_Hz_sec (time_steps : ℤ) (foff tsamp : ℚ)
    (options : IntegrateDriftsOptions) : ℚ :=
  unit_drift_resolution time_steps foff tsamp * (options.resolution : ℚ)

/-- `rounded_low_drift_Hz_sec` intermediate of `compute_drifts`: the low search
bound snapped to the nearest multiple of the unit drift resolution. -/
def rounded_low_drift_Hz_sec (time_steps : ℤ) (foff tsamp : ℚ)
    (options : IntegrateDriftsOptions) : ℚ :=
  (cround (options.low_rate_Hz_per_sec / unit_drift_resolution time_steps foff tsamp) : ℚ) *
    unit_drift_resolution time_steps foff tsamp

/-- `rounded_high_drift_Hz_sec` intermediate of `compute_drifts`. -/
def rounded_high_drift_Hz_sec (time_steps : ℤ) (foff tsamp : ℚ)
    (options : IntegrateDriftsOptions) : ℚ :=
  (cround (options.high_rate_Hz_per_sec / unit_drift_resolution time_steps foff tsamp) : ℚ) *
    unit_drift_resolution time_steps foff tsamp

/-- `number_drifts` intermediate of `compute_drifts`:
`abs((rounded_high - rounded_low) / search_resolution)`, a rational because the
source keeps it as a `double`. -/
def number_drifts (time_steps : ℤ) (foff tsamp : ℚ)
    (options : IntegrateDriftsOptions) : ℚ :=
  |(rounded_high_drift_Hz_sec time_steps foff tsamp options -
     rounded_low_drift_Hz_sec time_steps foff tsamp options) /
    search_resolution_Hz_sec time_steps foff tsamp options|

/-- The body of the `for` loop of `compute_drifts` at iteration `index`:
the `drift_rate` record pushed into the result vector. -/
def drift_rate_at (time_steps : ℤ) (foff tsamp : ℚ)
    (options : IntegrateDriftsOptions) (index : ℕ) : DriftRate :=
  let maximum_drift_time_span := time_steps - 1
  let foff_Hz := foff * 1000000
  let drift_rate := rounded_low_drift_Hz_sec time_steps foff tsamp options +
    (index : ℚ) * |search_resolution_Hz_sec time_steps foff tsamp options|
  let drift_channels_span :=
    cround (drift_rate * ((maximum_drift_time_span : ℚ) * tsamp) / foff_Hz)
  let m := (drift_channels_span : ℚ) / (maximum_drift_time_span : ℚ)
  let smeared_channels := cround |m|
  let desmear_binwidth : ℤ := if options.desmear then max 1 smeared_channels else 1
  { index_in_plane := (index : ℤ), drift_rate_slope := m,
    drift_rate_Hz_per_sec := drift_rate, drift_channels_span := drift_channels_span,
    desmeared_bins := desmear_binwidth }

/-- `compute_drifts` of `integrate_drifts.cpp`.  The C++ loop
`for (int index = 0; index < number_drifts; ++index)` runs over every integer
strictly below the (rational-valued) `number_drifts`, i.e. `⌈number_drifts⌉₊`
iterations. -/
def compute_drifts (time_steps : ℤ) (foff tsamp : ℚ)
    (options : IntegrateDriftsOptions) : List DriftRate :=
  (List.range ⌈number_drifts time_steps foff tsamp options⌉₊).map
    (drift_rate_at time_steps foff tsamp options)

/-- A hit with every field zero, used to build concrete test inputs. -/
def zeroHit : Hit :=
  { start_freq_index := 0, start_freq_MHz := 0, start_time_sec := 0, duration_sec := 0,
    rate_index := 0, drift_rate_Hz_per_sec := 0, power := 0, time_span_steps := 0,
    integrated_channels := 0, snr := 0, bandwidth := 0, binwidth := 0,
    rfi_counts := ⟨0, 0, 0, 0, 0⟩, coarse_channel_number := 0 }

/-- The slice of the `scan` class (`core/scan.hpp`, `part_003`) consumed by the
claims under study: the metadata proxied from `_meta`, the derived
`_tduration_secs`, the coarse-channel bookkeeping and the materialized result
of `scan::hits()` (which concatenates the per-channel hit lists). -/
structure Scan where
  fch1 : ℚ
  foff : ℚ
  tsamp : ℚ
  tstart : ℚ
  nchans : ℤ
  ntsteps : ℤ
  tduration_secs : ℚ
  num_coarse_channels : ℤ
  coarse_channel_offset : ℤ
  hits : List Hit
deriving DecidableEq, Repr, Inhabited

/-- The `observation_target` record (`core/cadence.hpp`): a list of scans of a
single source.  The `_target_name` field plays no role in the studied claims. -/
structure ObservationTarget where
  scans : List Scan
deriving DecidableEq, Repr, Inhabited

/-- The `cadence` record (`core/cadence.hpp`): an ordered list of observation
targets, the first of which is the primary ON target. -/
structure Cadence where
  observations : List ObservationTarget
deriving DecidableEq, Repr, Inhabited

/-- The inner accumulation of `find_best_matching_hit` (`event_search.cpp`):
the smallest `distance_func` value between the candidate hit `x` and any hit
already in the event.  The C++ starts from `FLT_MAX` and strictly improves;
an empty event (never produced by `event_search`) yields no finite value and is
modelled as `none`. -/
def lowest_dist_to_event (ev : List Hit) (x : Hit) : Option ℚ :=
  ev.foldl (fun acc hit_in_event =>
    let d := distance_func hit_in_event x
    match acc with
    | none => some d
    | some best => if d < best then some d else some best) none

/-- Recursion of `find_best_matching_hit` over the hits of the scan being
matched, carrying the position `i` of the current element and the best
`(distance, position)` found so far.  Mirrors the C++ iterator loop with its
`FLT_MAX` sentinel (modelled as `none`) and strict improvement test. -/
def find_best_aux (ev : List Hit) : List Hit → ℕ → Option (ℚ × ℕ) → Option (ℚ × ℕ)
  | [], _, best => best
  | x :: xs, i, best =>
      let best2 := match lowest_dist_to_event ev x, best with
        | none, b => b
        | some d, none => some (d, i)
        | some d, some (bd, bi) => if d < bd then some (d, i) else some (bd, bi)
      find_best_aux ev xs (i + 1) best2

/-- `find_best_matching_hit` of `event_search.cpp`: the position in
`hits_to_check` of the hit closest (by `lowest_dist_to_event`) to the candidate
event, together with that distance.  `none` models `best_it == end()`. -/
def find_best_matching_hit (ev : List Hit) (hits_to_check : List Hit) : Option (ℚ × ℕ) :=
  find_best_aux ev hits_to_check 0 none

/-- The matching loop of `evaluate_candidate_event` (`event_search.cpp`) over
the hit lists of the ON scans after the seed scan: for each subsequent scan, if
the best match is at distance `< 50` the matched hit is appended to the event
and erased from that scan's available-hit list.  Returns the grown event hit
list and the updated per-scan lists.  (The source also computes a hypothetical
rendezvous frequency for the event against each scan, but never uses it; that
dead code is omitted.) -/
def match_scans (ev : List Hit) : List (List Hit) → List Hit × List (List Hit)
  | [] => (ev, [])
  | l :: ls =>
      match find_best_matching_hit ev l with
      | some (d, i) =>
          if d < 50 then
            let rest := match_scans (ev ++ [l.getD i zeroHit]) ls
            (rest.1, l.eraseIdx i :: rest.2)
          else
            let rest := match_scans ev ls
            (rest.1, l :: rest.2)
      | none =>
          let rest := match_scans ev ls
          (rest.1, l :: rest.2)

/-- `count_event_in_off_scans` of `event_search.cpp`: the number of OFF-scan
hits whose summed distance to the event's hits, divided by the event size, is
below 50. -/
def count_event_in_off_scans (ev : List Hit) (off_scans : List Scan) : ℕ :=
  ((off_scans.map Scan.hits).flatten).countP (fun off_hit =>
    decide ((ev.map (fun event_hit => distance_func off_hit event_hit)).sum / (ev.length : ℚ) < 50))

/-- `finalize_event_averages` of `event_search.cpp`: set the averaged fields of
a finished event (sum over member hits divided by the number of hits). -/
def finalize_event_averages (candidate_event : Event) : Event :=
  let num_hits : ℚ := candidate_event.hits.length
  { candidate_event with
    average_drift_rate_Hz_per_sec :=
      (candidate_event.hits.map Hit.drift_rate_Hz_per_sec).sum / num_hits
    average_power := (candidate_event.hits.map Hit.power).sum / num_hits
    average_bandwidth := (candidate_event.hits.map Hit.bandwidth).sum / num_hits
    average_snr := (candidate_event.hits.map Hit.snr).sum / num_hits }

/-- `evaluate_candidate_event` of `event_search.cpp`: seed an event with
`starting_hit`, match it through the hit lists of the subsequent ON scans
(consuming matched hits), then emit it only if it has more than one hit and
was found in no OFF scan.  The updated subsequent-scan hit lists are returned
in either case, matching the in-place erasure of the source. -/
def evaluate_candidate_event (starting_hit : Hit) (starting_scan : Scan)
    (later_scan_hits : List (List Hit)) (off_scans : List Scan) :
    Option Event × List (List Hit) :=
  let candidate_event : Event :=
    { hits := [starting_hit]
      average_power := starting_hit.power
      average_snr := starting_hit.snr
      average_bandwidth := 0
      average_drift_rate_Hz_per_sec := starting_hit.drift_rate_Hz_per_sec
      event_start_seconds := starting_scan.tstart * seconds_per_day
      starting_frequency_Hz := starting_hit.start_freq_MHz * 1000000
      event_end_seconds := starting_scan.tstart * seconds_per_day + starting_scan.tduration_secs }
  let ms := match_scans candidate_event.hits later_scan_hits
  let matched_event := { candidate_event with hits := ms.1 }
  let times_event_in_off := count_event_in_off_scans matched_event.hits off_scans
  if 1 < matched_event.hits.length ∧ times_event_in_off = 0 then
    (some (finalize_event_averages matched_event), ms.2)
  else
    (none, ms.2)

/-- The seed loop of `event_search` for one ON scan: each hit of the scan's
(current) hit list seeds a candidate event against the subsequent scans' hit
lists, which are threaded through the successive evaluations. -/
def process_seeds (starting_scan : Scan) (off_scans : List Scan) :
    List Hit → List (List Hit) → List Event × List (List Hit)
  | [], later_scan_hits => ([], later_scan_hits)
  | starting_hit :: seeds, later_scan_hits =>
      let r1 := evaluate_candidate_event starting_hit starting_scan later_scan_hits off_scans
      let r2 := process_seeds starting_scan off_scans seeds r1.2
      (r1.1.toList ++ r2.1, r2.2)

/-- The outer loop of `event_search` over the ON scans, in order.  When scan
`i` is processed, the hit lists of scans `> i` have already been updated by the
erasures performed while seeding from earlier scans; scan `i`'s own list is
never modified while it is being seeded (`evaluate_candidate_event` only
touches strictly later scans). -/
def search_scans (off_scans : List Scan) : List Scan → List (List Hit) → List Event
  | starting_scan :: more_scans, seeds :: later_scan_hits =>
      let r := process_seeds starting_scan off_scans seeds later_scan_hits
      r.1 ++ search_scans off_scans more_scans r.2
  | _, _ => []

/-- `extract_off_scans` of `event_search.cpp`: all scans of every observation
other than the primary (index `0`) ON target, in cadence order. -/
def extract_off_scans (cadence_with_hits : Cadence) : List Scan :=
  ((cadence_with_hits.observations.drop 1).map ObservationTarget.scans).flatten

/-- `bliss::event_search` (`event_search.cpp`): search the cadence's primary
target for multi-scan events, using the remaining targets' scans as OFF
background.  The source indexes `_observations[0]` unconditionally; an empty
cadence is modelled by the empty target. -/
def event_search (cadence_with_hits : Cadence) : List Event :=
  let on_target_obs := cadence_with_hits.observations.headD ⟨[]⟩
  let on_scan_hits := on_target_obs.scans.map Scan.hits
  let off_scans := extract_off_scans cadence_with_hits
  search_scans off_scans on_target_obs.scans on_scan_hits

/-- The `noise_stats` record (`core/noise_power.hpp`): per-channel noise floor
(mean) and noise power (variance). -/
structure NoiseStats where
  noise_floor : ℚ
  noise_power : ℚ
deriving DecidableEq, Repr, Inhabited

/-- The `freq_drift_coord` record of `core/protohit.hpp`. -/
structure FreqDriftCoord where
  drift_index : ℤ
  frequency_channel : ℤ
deriving DecidableEq, Repr, Inhabited

/-- The `protohit` record of `core/protohit.hpp` (the fields consumed by
`hit_search`; the `locations` member list plays no role there). -/
structure Protohit where
  index_max : FreqDriftCoord
  index_center : FreqDriftCoord
  snr : ℚ
  max_integration : ℚ
  desmeared_noise : ℚ
  binwidth : ℤ
  rfi_counts : Rfi
deriving DecidableEq, Repr, Inhabited

/-- The slice of a dedrifted `coarse_channel` that `hit_search` reads: the
metadata proxies, the cached noise estimate, and the integrated drift plane's
`integration_steps` and `drift_rate_info`. -/
structure DedriftedCoarseChannel where
  fch1 : ℚ
  foff : ℚ
  tsamp : ℚ
  tstart : ℚ
  coarse_channel_number : ℤ
  noise_estimate : NoiseStats
  integration_steps : ℤ
  drift_rate_info : List DriftRate
deriving DecidableEq, Repr, Inhabited

/-- `bliss::hit_search` on a dedrifted coarse channel (the listing in
`TESTING.md`): characterize every protohit returned by `protohit_search` into a
physical `hit`.  `protohit_search` itself (connected components / local maxima)
is outside the studied claims, so the protohit list is a parameter here.
Remarks tied to the source:
* `start_freq_MHz` is assigned twice, first from the peak and then from the
  centroid; the record update below mirrors the second (surviving) assignment;
* the trailing conditional `rfi_counts` re-insertions copy values that the
  full-map assignment already copied, so they are no-ops and are not repeated;
* `time_span_steps` is never assigned (indeterminate in C++); it is modelled
  as `0`;
* `drift_rate_info` is indexed with the peak's drift index (unchecked
  `operator[]` in C++), modelled with `List.getD`. -/
def hit_search (cc : DedriftedCoarseChannel) (protohits : List Protohit) : List Hit :=
  protohits.map (fun c =>
    let rate_index := c.index_max.drift_index
    let dri := cc.drift_rate_info.getD rate_index.toNat default
    let signal_power := c.max_integration - cc.noise_estimate.noise_floor
    let this_hit : Hit :=
      { rate_index := rate_index
        rfi_counts := c.rfi_counts
        start_freq_index := c.index_max.frequency_channel
        start_freq_MHz := cc.fch1 + cc.foff * (c.index_max.frequency_channel : ℚ)
        drift_rate_Hz_per_sec := dri.drift_rate_Hz_per_sec
        power := signal_power
        snr := signal_power / c.desmeared_noise
        binwidth := c.binwidth
        bandwidth := (c.binwidth : ℚ) * |1000000 * cc.foff|
        start_time_sec := cc.tstart * 24 * 60 * 60
        duration_sec := cc.tsamp * (cc.integration_steps : ℚ)
        time_span_steps := 0
        integrated_channels := dri.desmeared_bins * cc.integration_steps
        coarse_channel_number := cc.coarse_channel_number }
    { this_hit with
        start_freq_MHz := cc.fch1 + cc.foff * (c.index_center.frequency_channel : ℚ) })

/-- `observation_target::validate_scan_consistency` (`core/cadence.cpp`,
`part_006`): the reference values are taken from `_scans[0]` and every scan is
compared against them; the source returns `false` as soon as
`(abs(fch1 - ref) < 1e-6) || (abs(foff - ref) < 1e-6) || (nchans != ref)`
holds for some scan.  With an empty scan list the loop body never runs and the
function returns `true`. -/
def ObservationTarget.validate_scan_consistency (t : ObservationTarget) : Bool :=
  match t.scans with
  | [] => true
  | s0 :: _ =>
      t.scans.all (fun sc =>
        !(decide (|sc.fch1 - s0.fch1| < 1 / 1000000) ||
          decide (|sc.foff - s0.foff| < 1 / 1000000) ||
          decide (sc.nchans ≠ s0.nchans)))

/-- `scan::get_number_coarse_channels` (`part_003`): returns the stored
`_num_coarse_channels`. -/
def Scan.get_number_coarse_channels (s : Scan) : ℤ :=
  s.num_coarse_channels

/-- `scan::get_coarse_channel_with_frequency` (`part_003`). -/
def Scan.get_coarse_channel_with_frequency (s : Scan) (frequency : ℚ) : ℤ :=
  ⌊(frequency - s.fch1) / s.foff / (s.nchans : ℚ) * (s.num_coarse_channels : ℚ)⌋

/-- `observation_target::get_number_coarse_channels` (`part_006`): the thrown
`std::runtime_error` is modelled as `Except.error`.  The consistent branch
reads `_scans[0]`, modelled with `headD`. -/
def ObservationTarget.get_number_coarse_channels (t : ObservationTarget) : Except String ℤ :=
  if t.validate_scan_consistency then
    Except.ok (t.scans.headD default).get_number_coarse_channels
  else
    Except.error "scans inside observation target are not consistent enough to return a number of channels"

/-- `observation_target::get_coarse_channel_with_frequency` (`part_006`). -/
def ObservationTarget.get_coarse_channel_with_frequency (t : ObservationTarget)
    (frequency : ℚ) : Except String ℤ :=
  if t.validate_scan_consistency then
    Except.ok ((t.scans.headD default).get_coarse_channel_with_frequency frequency)
  else
    Except.error "scans inside observation target are not consistent enough to return a channel index"

/-- `scan::read_coarse_channel` (`part_003`): the bounds guard
`if (index < 0 || index > _num_coarse_channels) throw std::out_of_range`,
followed by construction of the channel at `index + _coarse_channel_offset`.
The lazy channel construction and pipeline application are independent of the
bounds-check behaviour under study, so the successful branch is modelled by the
`global_offset_in_file` the source computes and uses as cache key. -/
def Scan.read_coarse_channel (s : Scan) (coarse_channel_index : ℤ) : Except String ℤ :=
  if coarse_channel_index < 0 ∨ coarse_channel_index > s.num_coarse_channels then
    Except.error "ERROR: invalid coarse channel"
  else
    Except.ok (coarse_channel_index + s.coarse_channel_offset)

/-- `scan::peak_coarse_channel` (`part_003`): identical bounds guard; the
successful branch looks up `index + _coarse_channel_offset` in the channel
cache (returning `nullptr` on a miss), modelled by the lookup key. -/
def Scan.peak_coarse_channel (s : Scan) (coarse_channel_index : ℤ) : Except String ℤ :=
  if coarse_channel_index < 0 ∨ coarse_channel_index > s.num_coarse_channels then
    Except.error "ERROR: invalid coarse channel"
  else
    Except.ok (coarse_channel_index + s.coarse_channel_offset)

/-- Concrete hit with drift rate `2` used in counterexamples. -/
def driftTwoHit : Hit := { zeroHit with drift_rate_Hz_per_sec := 2 }

/-- Concrete hit with duration `10` used in counterexamples. -/
def durationTenHit : Hit := { zeroHit with duration_sec := 10 }

/-- Concrete hit with duration `10` and drift rate `1` used in
counterexamples. -/
def durationTenDriftOneHit : Hit :=
  { zeroHit with duration_sec := 10, drift_rate_Hz_per_sec := 1 }

/-- Concrete options for the drift-grid counterexample: no desmearing, search
from `0` to `2` Hz/s at resolution `1`. -/
def gridOptions : IntegrateDriftsOptions :=
  { desmear := false, low_rate_Hz_per_sec := 0, high_rate_Hz_per_sec := 2, resolution := 1 }

/-- Concrete scan used to instantiate the cadence-level theorems. -/
def sampleScan : Scan :=
  { fch1 := 1000, foff := 1 / 1000000, tsamp := 1, tstart := 0, nchans := 64, ntsteps := 16,
    tduration_secs := 16, num_coarse_channels := 4, coarse_channel_offset := 0, hits := [] }

/-- Concrete observation target with two identical scans. -/
def sampleTarget : ObservationTarget := ⟨[sampleScan, sampleScan]⟩

/-- Concrete drift-rate entry used to instantiate the hit-search theorem. -/
def sampleDriftRate : DriftRate :=
  { index_in_plane := 0, drift_rate_slope := 1 / 2, drift_rate_Hz_per_sec := 3,
    drift_channels_span := 8, desmeared_bins := 2 }

/-- Concrete protohit used to instantiate the hit-search theorem. -/
def sampleProtohit : Protohit :=
  { index_max := ⟨0, 2000⟩, index_center := ⟨0, 2001⟩, snr := 160, max_integration := 170,
    desmeared_noise := 1, binwidth := 2, rfi_counts := ⟨0, 0, 0, 0, 16⟩ }

/-- Concrete dedrifted channel used to instantiate the hit-search theorem. -/
def sampleChannel : DedriftedCoarseChannel :=
  { fch1 := 8000, foff := 1 / 1000000, tsamp := 1, tstart := 0, coarse_channel_number := 0,
    noise_estimate := { noise_floor := 10, noise_power := 1 }, integration_steps := 16,
    drift_rate_info := [sampleDriftRate] }

/-- C1 (counterexample): at drift rates `2` and `0`, the value computed by
`distance_func` differs from the formula the claim states (which squares the
already-squared drift difference, i.e. uses `((Δ)^2 / D)^2` where the code
computes `(|Δ| / D)^2`). -/
theorem distance_func_spec_formula_cex :
    distance_func driftTwoHit zeroHit ≠ spec_distance driftTwoHit zeroHit := by
  norm_num [distance_func, spec_distance, driftTwoHit, zeroHit, rendezvous_time,
    last_sample_time, first_sample_time, hit_rendezvous_frequency, distance_eps,
    freq_localization_weight, drift_error_weight, snr_difference_weight]

/-- C1 (amended): for every pair of hits, the event-search distance equals
`0.01` times the absolute difference of the two frequencies projected to the
rendezvous time, plus `10` times the square of
`|drift_a - drift_b| / (1e-8 + drift_a^2 + drift_b^2)`, plus `0` times the
absolute SNR difference. -/
theorem distance_func_weighted_sum (a b : Hit) :
    distance_func a b =
      1 / 100 * |hit_rendezvous_frequency a (rendezvous_time a b) -
        hit_rendezvous_frequency b (rendezvous_time a b)| +
      10 * (|a.drift_rate_Hz_per_sec - b.drift_rate_Hz_per_sec| /
        (1 / 100000000 + a.drift_rate_Hz_per_sec ^ 2 + b.drift_rate_Hz_per_sec ^ 2)) ^ 2 +
      0 * |a.snr - b.snr| := by
  simp only [distance_func, freq_localization_weight, drift_error_weight,
    snr_difference_weight, distance_eps]
  ring

/-- C2 (counterexample): for a hit of duration `10` against a zero hit, the
rendezvous time computed by the code (which uses `b`'s duration in both arms of
the `max`) is not the claimed
`(min(start_a, start_b) + max(start_a + duration_a, start_b + duration_b)) / 2`. -/
theorem rendezvous_time_cex :
    rendezvous_time durationTenHit zeroHit ≠
      (min durationTenHit.start_time_sec zeroHit.start_time_sec +
        max (durationTenHit.start_time_sec + durationTenHit.duration_sec)
          (zeroHit.start_time_sec + zeroHit.duration_sec)) / 2 := by
  norm_num [rendezvous_time, last_sample_time, first_sample_time, durationTenHit, zeroHit]

/-- C2 (amended): the rendezvous time equals
`(min(start_a, start_b) + max(start_a + duration_b, start_b + duration_b)) / 2`
— the first `max` operand uses `b`'s duration, the behaviour the spec flags for
review — and each hit's predicted frequency at that time is its start frequency
(in Hz) plus its drift rate times the time from its start to the rendezvous
time. -/
theorem rendezvous_time_and_projection (a b : Hit) :
    rendezvous_time a b =
      (min a.start_time_sec b.start_time_sec +
        max (a.start_time_sec + b.duration_sec) (b.start_time_sec + b.duration_sec)) / 2 ∧
    hit_rendezvous_frequency a (rendezvous_time a b) =
      a.start_freq_MHz * 1000000 +
        a.drift_rate_Hz_per_sec * (rendezvous_time a b - a.start_time_sec) ∧
    hit_rendezvous_frequency b (rendezvous_time a b) =
      b.start_freq_MHz * 1000000 +
        b.drift_rate_Hz_per_sec * (rendezvous_time a b - b.start_time_sec) := by
  refine ⟨?_, rfl, rfl⟩
  simp only [rendezvous_time, last_sample_time, first_sample_time]
  ring

/-- C10 (counterexample): `distance_func` is not symmetric: a hit of duration
`10` and drift `1` against the zero hit gives different distances in the two
argument orders (the rendezvous time uses `b`'s duration twice). -/
theorem distance_func_symm_cex :
    distance_func durationTenDriftOneHit zeroHit ≠
      distance_func zeroHit durationTenDriftOneHit := by
  norm_num [distance_func, durationTenDriftOneHit, zeroHit, rendezvous_time,
    last_sample_time, first_sample_time, hit_rendezvous_frequency, distance_eps,
    freq_localization_weight, drift_error_weight, snr_difference_weight]

/-- C10 (amended): `distance_func` is symmetric for hits of equal duration;
in general the memoization cache of `hit_distance`, which identifies the pairs
`(a, b)` and `(b, a)`, assumes a symmetry the function only has under this
condition. -/
theorem distance_func_symm_of_equal_durations (a b : Hit)
    (h : a.duration_sec = b.duration_sec) :
    distance_func a b = distance_func b a := by
  have ht : rendezvous_time a b = rendezvous_time b a := by
    simp only [rendezvous_time, last_sample_time, first_sample_time, h]
    rw [max_comm (b.start_time_sec + b.duration_sec), min_comm b.start_time_sec]
  simp only [distance_func, ht]
  rw [abs_sub_comm a.snr, abs_sub_comm a.drift_rate_Hz_per_sec,
    abs_sub_comm (hit_rendezvous_frequency a (rendezvous_time b a))]
  ring

/-- Witness for the amended C10 theorem at two concrete distinct hits of equal
duration. -/
theorem distance_func_symm_of_equal_durations_witness :
    durationTenDriftOneHit.duration_sec = durationTenHit.duration_sec ∧
    distance_func durationTenDriftOneHit durationTenHit =
      distance_func durationTenHit durationTenDriftOneHit :=
  ⟨rfl, distance_func_symm_of_equal_durations durationTenDriftOneHit durationTenHit rfl⟩

/-- C6: `filter_hits` returns exactly the hits that satisfy none of the four
rejection rules, with `N = |integrated_channels|`: zero drift below `1e-6`,
too few sigma-clip counts, too few high-SK counts, too many low-SK counts. -/
theorem filter_hits_rejection_rules (hits : List Hit) (options : FilterOptions) :
    filter_hits hits options = hits.filter (fun h =>
      decide ¬((options.filter_zero_drift ∧ |h.drift_rate_Hz_per_sec| < 1 / 1000000) ∨
        (options.filter_sigmaclip ∧ (h.rfi_counts.sigma_clip : ℚ) <
          |(h.integrated_channels : ℚ)| * options.minimum_percent_sigmaclip) ∨
        (options.filter_high_sk ∧ (h.rfi_counts.high_spectral_kurtosis : ℚ) <
          |(h.integrated_channels : ℚ)| * options.minimum_percent_high_sk) ∨
        (options.filter_low_sk ∧ (h.rfi_counts.low_spectral_kurtosis : ℚ) >
          |(h.integrated_channels : ℚ)| * options.maximum_percent_low_sk))) := by
  unfold filter_hits
  apply List.filter_congr
  intro h _
  unfold reject_hit filter_eps
  split_ifs with h1 h2 h3 h4 <;> simp_all [← decide_not, not_lt]

/-- C7: filtering an already-filtered hit list with the same options is a
fixed point. -/
theorem filter_hits_idempotent (hits : List Hit) (options : FilterOptions) :
    filter_hits (filter_hits hits options) options = filter_hits hits options := by
  simp [filter_hits, List.filter_filter, Bool.and_self]

/-- C4 (counterexample): with `ntsteps = 2`, `foff = 1e-6 MHz`, `tsamp = 1` and
a search from `0` to `2` at resolution `1`, the index `2` satisfies
`index * step ≤ |high - low|` (both sides are `2`), yet the grid has no entry
at index `2`: the loop bound of the code is strict. -/
theorem compute_drifts_upper_bound_cex :
    (2 : ℚ) * |search_resolution_Hz_sec 2 (1 / 1000000) 1 gridOptions| ≤
      |rounded_high_drift_Hz_sec 2 (1 / 1000000) 1 gridOptions -
        rounded_low_drift_Hz_sec 2 (1 / 1000000) 1 gridOptions| ∧
    (compute_drifts 2 (1 / 1000000) 1 gridOptions)[2]? = none := by
  have hu : unit_drift_resolution 2 (1 / 1000000) 1 = 1 := by
    norm_num [unit_drift_resolution]
  have hs : search_resolution_Hz_sec 2 (1 / 1000000) 1 gridOptions = 1 := by
    norm_num [search_resolution_Hz_sec, hu, gridOptions]
  have hl : rounded_low_drift_Hz_sec 2 (1 / 1000000) 1 gridOptions = 0 := by
    norm_num [rounded_low_drift_Hz_sec, hu, gridOptions, cround]
  have hh : rounded_high_drift_Hz_sec 2 (1 / 1000000) 1 gridOptions = 2 := by
    norm_num [rounded_high_drift_Hz_sec, hu, gridOptions, cround]
  have hn : number_drifts 2 (1 / 1000000) 1 gridOptions = 2 := by
    norm_num [number_drifts, hs, hl, hh]
  refine ⟨by rw [hs, hl, hh]; norm_num, ?_⟩
  rw [compute_drifts, hn]
  norm_num

/-- C4 (amended): for every `ntsteps ≥ 2`, `foff ≠ 0`, `tsamp > 0` and options
with nonzero resolution, the drift grid contains, for every index with
`index * step` strictly below `|high - low|` (after snapping the bounds to
multiples of the unit drift), the entry with
`rate = low + index * step`,
`channel_span = round(rate * (ntsteps - 1) * tsamp / (foff * 1e6))`,
`slope = channel_span / (ntsteps - 1)`, and
`desmeared_bins = max(1, round(|slope|))` when desmearing is enabled and `1`
otherwise.  (The original claim's non-strict bound fails exactly on the last
grid point; the code iterates while `index < number_drifts`.) -/
theorem compute_drifts_grid_entries (time_steps : ℤ) (foff tsamp : ℚ)
    (options : IntegrateDriftsOptions) (h2 : 2 ≤ time_steps) (hf : foff ≠ 0)
    (ht : 0 < tsamp) (hres : options.resolution ≠ 0) (index : ℕ)
    (hidx : (index : ℚ) * |search_resolution_Hz_sec time_steps foff tsamp options| <
      |rounded_high_drift_Hz_sec time_steps foff tsamp options -
        rounded_low_drift_Hz_sec time_steps foff tsamp options|) :
    (compute_drifts time_steps foff tsamp options)[index]? = some
      { index_in_plane := (index : ℤ)
        drift_rate_slope :=
          ((cround ((rounded_low_drift_Hz_sec time_steps foff tsamp options +
            (index : ℚ) * |search_resolution_Hz_sec time_steps foff tsamp options|) *
            ((time_steps : ℚ) - 1) * tsamp / (foff * 1000000)) : ℤ) : ℚ) / ((time_steps : ℚ) - 1)
        drift_rate_Hz_per_sec := rounded_low_drift_Hz_sec time_steps foff tsamp options +
          (index : ℚ) * |search_resolution_Hz_sec time_steps foff tsamp options|
        drift_channels_span := cround ((rounded_low_drift_Hz_sec time_steps foff tsamp options +
          (index : ℚ) * |search_resolution_Hz_sec time_steps foff tsamp options|) *
          ((time_steps : ℚ) - 1) * tsamp / (foff * 1000000))
        desmeared_bins := if options.desmear then
          max 1 (cround |((cround ((rounded_low_drift_Hz_sec time_steps foff tsamp options +
            (index : ℚ) * |search_resolution_Hz_sec time_steps foff tsamp options|) *
            ((time_steps : ℚ) - 1) * tsamp / (foff * 1000000)) : ℤ) : ℚ) /
            ((time_steps : ℚ) - 1)|) else 1 } := by
  have hstep : search_resolution_Hz_sec time_steps foff tsamp options ≠ 0 := by
    have hts : ((time_steps : ℚ) - 1) ≠ 0 := by
      have : (2 : ℚ) ≤ (time_steps : ℚ) := by exact_mod_cast h2
      linarith
    have hu : unit_drift_resolution time_steps foff tsamp ≠ 0 := by
      unfold unit_drift_resolution
      exact div_ne_zero (by simpa using hf) (mul_ne_zero hts (ne_of_gt ht))
    unfold search_resolution_Hz_sec
    exact mul_ne_zero hu (by exact_mod_cast hres)
  have habs : (0 : ℚ) < |search_resolution_Hz_sec time_steps foff tsamp options| :=
    abs_pos.mpr hstep
  have hlt : index < ⌈number_drifts time_steps foff tsamp options⌉₊ := by
    rw [Nat.lt_ceil]
    unfold number_drifts
    rw [abs_div]
    exact (lt_div_iff₀ habs).mpr hidx
  rw [compute_drifts]
  have harg : (rounded_low_drift_Hz_sec time_steps foff tsamp options +
      (index : ℚ) * |search_resolution_Hz_sec time_steps foff tsamp options|) *
      (((time_steps : ℚ) - 1) * tsamp) / (foff * 1000000) =
      (rounded_low_drift_Hz_sec time_steps foff tsamp options +
      (index : ℚ) * |search_resolution_Hz_sec time_steps foff tsamp options|) *
      ((time_steps : ℚ) - 1) * tsamp / (foff * 1000000) := by
    ring_nf
  simp only [List.getElem?_map, List.getElem?_range hlt, Option.map_some', drift_rate_at,
    Int.cast_sub, Int.cast_one, harg]

/-- Witness for the amended C4 theorem: the concrete grid of
`compute_drifts 2 (1e-6) 1 ⟨false, 0, 2, 1⟩` does contain the entry at
index `1`. -/
theorem compute_drifts_grid_entries_witness :
    (2 : ℤ) ≤ 2 ∧ (1 / 1000000 : ℚ) ≠ 0 ∧ (0 : ℚ) < 1 ∧ gridOptions.resolution ≠ 0 ∧
    (1 : ℚ) * |search_resolution_Hz_sec 2 (1 / 1000000) 1 gridOptions| <
      |rounded_high_drift_Hz_sec 2 (1 / 1000000) 1 gridOptions -
        rounded_low_drift_Hz_sec 2 (1 / 1000000) 1 gridOptions| ∧
    (compute_drifts 2 (1 / 1000000) 1 gridOptions)[1]? = some
      { index_in_plane := (1 : ℤ)
        drift_rate_slope :=
          ((cround ((rounded_low_drift_Hz_sec 2 (1 / 1000000) 1 gridOptions +
            (1 : ℚ) * |search_resolution_Hz_sec 2 (1 / 1000000) 1 gridOptions|) *
            ((2 : ℚ) - 1) * 1 / (1 / 1000000 * 1000000)) : ℤ) : ℚ) / ((2 : ℚ) - 1)
        drift_rate_Hz_per_sec := rounded_low_drift_Hz_sec 2 (1 / 1000000) 1 gridOptions +
          (1 : ℚ) * |search_resolution_Hz_sec 2 (1 / 1000000) 1 gridOptions|
        drift_channels_span := cround ((rounded_low_drift_Hz_sec 2 (1 / 1000000) 1 gridOptions +
          (1 : ℚ) * |search_resolution_Hz_sec 2 (1 / 1000000) 1 gridOptions|) *
          ((2 : ℚ) - 1) * 1 / (1 / 1000000 * 1000000))
        desmeared_bins := if gridOptions.desmear then
          max 1 (cround |((cround ((rounded_low_drift_Hz_sec 2 (1 / 1000000) 1 gridOptions +
            (1 : ℚ) * |search_resolution_Hz_sec 2 (1 / 1000000) 1 gridOptions|) *
            ((2 : ℚ) - 1) * 1 / (1 / 1000000 * 1000000)) : ℤ) : ℚ) /
            ((2 : ℚ) - 1)|) else 1 } := by
  refine ⟨by norm_num, by norm_num, by norm_num, by norm_num [gridOptions], ?_, ?_⟩
  · norm_num [search_resolution_Hz_sec, rounded_high_drift_Hz_sec, rounded_low_drift_Hz_sec,
      unit_drift_resolution, gridOptions, cround]
  · have := compute_drifts_grid_entries 2 (1 / 1000000) 1 gridOptions (by norm_num)
      (by norm_num) (by norm_num) (by norm_num [gridOptions]) 1
      (by norm_num [search_resolution_Hz_sec, rounded_high_drift_Hz_sec,
        rounded_low_drift_Hz_sec, unit_drift_resolution, gridOptions, cround])
    simpa using this

/-- C5: every hit emitted by `hit_search` takes `start_freq_index` from the
protohit peak while `start_freq_MHz` uses the centroid channel; its power is
the peak integration minus the noise floor and its SNR that power over the
desmeared noise; its duration is `tsamp` times the integration steps; its
bandwidth is `binwidth` times `|foff * 1e6|`; and its integrated channel count
is the matched drift rate's `desmeared_bins` times the integration steps. -/
theorem hit_search_characterization (cc : DedriftedCoarseChannel)
    (protohits : List Protohit) (i : ℕ) (c : Protohit) (dri : DriftRate)
    (hc : protohits[i]? = some c) (hnn : 0 ≤ c.index_max.drift_index)
    (hdri : cc.drift_rate_info[c.index_max.drift_index.toNat]? = some dri) :
    ∃ h : Hit, (hit_search cc protohits)[i]? = some h ∧
      h.start_freq_index = c.index_max.frequency_channel ∧
      h.start_freq_MHz = cc.fch1 + cc.foff * (c.index_center.frequency_channel : ℚ) ∧
      h.power = c.max_integration - cc.noise_estimate.noise_floor ∧
      h.snr = h.power / c.desmeared_noise ∧
      h.duration_sec = cc.tsamp * (cc.integration_steps : ℚ) ∧
      h.bandwidth = (c.binwidth : ℚ) * |cc.foff * 1000000| ∧
      h.integrated_channels = dri.desmeared_bins * cc.integration_steps := by
  have hget : cc.drift_rate_info.getD c.index_max.drift_index.toNat default = dri := by
    rw [List.getD_eq_getElem?_getD, hdri]
    rfl
  rw [hit_search, List.getElem?_map, hc, Option.map_some']
  refine ⟨_, rfl, rfl, rfl, rfl, rfl, rfl, ?_, ?_⟩
  · show (c.binwidth : ℚ) * |1000000 * cc.foff| = (c.binwidth : ℚ) * |cc.foff * 1000000|
    rw [mul_comm (1000000 : ℚ) cc.foff]
  · show (cc.drift_rate_info.getD c.index_max.drift_index.toNat default).desmeared_bins *
      cc.integration_steps = dri.desmeared_bins * cc.integration_steps
    rw [hget]

/-- Witness for the C5 theorem at a concrete channel and protohit. -/
theorem hit_search_characterization_witness :
    [sampleProtohit][0]? = some sampleProtohit ∧
    0 ≤ sampleProtohit.index_max.drift_index ∧
    sampleChannel.drift_rate_info[sampleProtohit.index_max.drift_index.toNat]? =
      some sampleDriftRate ∧
    ∃ h : Hit, (hit_search sampleChannel [sampleProtohit])[0]? = some h ∧
      h.start_freq_index = sampleProtohit.index_max.frequency_channel ∧
      h.start_freq_MHz = sampleChannel.fch1 + sampleChannel.foff *
        (sampleProtohit.index_center.frequency_channel : ℚ) ∧
      h.power = sampleProtohit.max_integration - sampleChannel.noise_estimate.noise_floor ∧
      h.snr = h.power / sampleProtohit.desmeared_noise ∧
      h.duration_sec = sampleChannel.tsamp * (sampleChannel.integration_steps : ℚ) ∧
      h.bandwidth = (sampleProtohit.binwidth : ℚ) * |sampleChannel.foff * 1000000| ∧
      h.integrated_channels = sampleDriftRate.desmeared_bins * sampleChannel.integration_steps :=
  ⟨rfl, le_refl 0, rfl,
    hit_search_characterization sampleChannel [sampleProtohit] 0 sampleProtohit
      sampleDriftRate rfl (le_refl 0) rfl⟩

/-- C8: contrary to the claim, the inverted comparisons in
`validate_scan_consistency` (`abs(diff) < 1e-6` joined by `||`) make every
observation target with identical scans — indeed any nonempty target — fail
validation, so `get_number_coarse_channels` and
`get_coarse_channel_with_frequency` raise the consistency error even though the
scans are perfectly consistent. -/
theorem validate_scan_consistency_rejects_identical_scans (t : ObservationTarget)
    (hne : t.scans ≠ [])
    (hsame : ∀ sc ∈ t.scans, sc.fch1 = (t.scans.headD default).fch1 ∧
      sc.foff = (t.scans.headD default).foff ∧ sc.nchans = (t.scans.headD default).nchans) :
    t.validate_scan_consistency = false ∧
    t.get_number_coarse_channels = Except.error
      "scans inside observation target are not consistent enough to return a number of channels" ∧
    ∀ frequency : ℚ, t.get_coarse_channel_with_frequency frequency = Except.error
      "scans inside observation target are not consistent enough to return a channel index" := by
  obtain ⟨s0, rest, hcons⟩ : ∃ s0 rest, t.scans = s0 :: rest := by
    cases hs : t.scans with
    | nil => exact absurd hs hne
    | cons s0 rest => exact ⟨s0, rest, rfl⟩
  have hval : t.validate_scan_consistency = false := by
    rw [ObservationTarget.validate_scan_consistency, hcons]
    apply List.all_eq_false.mpr
    refine ⟨s0, List.mem_cons_self s0 rest, ?_⟩
    simp
  refine ⟨hval, ?_, ?_⟩
  · rw [ObservationTarget.get_number_coarse_channels, hval]
    simp
  · intro frequency
    rw [ObservationTarget.get_coarse_channel_with_frequency, hval]
    simp

/-- Witness for the C8 theorem at a concrete target of two identical scans. -/
theorem validate_scan_consistency_rejects_identical_scans_witness :
    sampleTarget.scans ≠ [] ∧
    (∀ sc ∈ sampleTarget.scans, sc.fch1 = (sampleTarget.scans.headD default).fch1 ∧
      sc.foff = (sampleTarget.scans.headD default).foff ∧
      sc.nchans = (sampleTarget.scans.headD default).nchans) ∧
    sampleTarget.validate_scan_consistency = false ∧
    sampleTarget.get_number_coarse_channels = Except.error
      "scans inside observation target are not consistent enough to return a number of channels" ∧
    ∀ frequency : ℚ, sampleTarget.get_coarse_channel_with_frequency frequency = Except.error
      "scans inside observation target are not consistent enough to return a channel index" := by
  have h1 : sampleTarget.scans ≠ [] := by simp [sampleTarget]
  have h2 : ∀ sc ∈ sampleTarget.scans, sc.fch1 = (sampleTarget.scans.headD default).fch1 ∧
      sc.foff = (sampleTarget.scans.headD default).foff ∧
      sc.nchans = (sampleTarget.scans.headD default).nchans := by
    intro sc hsc
    rcases List.mem_pair.mp hsc with h | h <;> subst h <;> exact ⟨rfl, rfl, rfl⟩
  exact ⟨h1, h2, validate_scan_consistency_rejects_identical_scans sampleTarget h1 h2⟩

/-- C9: contrary to the claim, the bounds guard of `read_coarse_channel` and
`peak_coarse_channel` uses `index > _num_coarse_channels` rather than `>=`, so
the out-of-range index `get_number_coarse_channels()` itself (one past the last
valid index) is accepted without an error. -/
theorem read_coarse_channel_accepts_past_the_end_index (s : Scan)
    (hnn : 0 ≤ s.num_coarse_channels) :
    ¬ s.get_number_coarse_channels < s.get_number_coarse_channels ∧
    s.read_coarse_channel s.get_number_coarse_channels =
      Except.ok (s.num_coarse_channels + s.coarse_channel_offset) ∧
    s.peak_coarse_channel s.get_number_coarse_channels =
      Except.ok (s.num_coarse_channels + s.coarse_channel_offset) := by
  have hguard : ¬(s.num_coarse_channels < 0 ∨ s.num_coarse_channels > s.num_coarse_channels) := by
    push_neg
    exact ⟨hnn, le_refl _⟩
  refine ⟨lt_irrefl _, ?_, ?_⟩
  · rw [Scan.get_number_coarse_channels, Scan.read_coarse_channel, if_neg hguard]
  · rw [Scan.get_number_coarse_channels, Scan.peak_coarse_channel, if_neg hguard]

/-- Witness for the C9 theorem at a concrete scan with four coarse channels. -/
theorem read_coarse_channel_accepts_past_the_end_index_witness :
    0 ≤ sampleScan.num_coarse_channels ∧
    ¬ sampleScan.get_number_coarse_channels < sampleScan.get_number_coarse_channels ∧
    sampleScan.read_coarse_channel sampleScan.get_number_coarse_channels =
      Except.ok (sampleScan.num_coarse_channels + sampleScan.coarse_channel_offset) ∧
    sampleScan.peak_coarse_channel sampleScan.get_number_coarse_channels =
      Except.ok (sampleScan.num_coarse_channels + sampleScan.coarse_channel_offset) :=
  ⟨by norm_num [sampleScan],
    read_coarse_channel_accepts_past_the_end_index sampleScan (by norm_num [sampleScan])⟩

/-- Helper: every index recorded by `find_best_aux` beyond those already in the
accumulator points into the scanned list. -/
theorem find_best_aux_index_lt (ev : List Hit) :
    ∀ (l : List Hit) (i0 : ℕ) (best : Option (ℚ × ℕ)) (d : ℚ) (j : ℕ),
    (∀ d0 j0, best = some (d0, j0) → j0 < i0) →
    find_best_aux ev l i0 best = some (d, j) → j < i0 + l.length := by
  intro l
  induction l with
  | nil =>
      intro i0 best d j hbest hres
      rw [find_best_aux] at hres
      simpa using hbest d j hres
  | cons x xs ih =>
      intro i0 best d j hbest hres
      have hstep : j < (i0 + 1) + xs.length := by
        rcases hl : lowest_dist_to_event ev x with _ | dv <;>
          rcases hb : best with _ | ⟨bd, bi⟩ <;>
          subst hb <;>
          simp only [find_best_aux, hl] at hres
        · exact ih (i0 + 1) none d j (by intro d0 j0 h0; cases h0) hres
        · refine ih (i0 + 1) _ d j ?_ hres
          intro d0 j0 h0
          simp at h0
          have := hbest bd bi rfl
          omega
        · refine ih (i0 + 1) _ d j ?_ hres
          intro d0 j0 h0
          simp at h0
          omega
        · by_cases hdv : dv < bd
          · rw [if_pos hdv] at hres
            refine ih (i0 + 1) _ d j ?_ hres
            intro d0 j0 h0
            simp at h0
            omega
          · rw [if_neg hdv] at hres
            refine ih (i0 + 1) _ d j ?_ hres
            intro d0 j0 h0
            simp at h0
            have := hbest bd bi rfl
            omega
      simpa [List.length_cons, Nat.add_assoc, Nat.add_comm 1 xs.length] using hstep

/-- Helper: the position returned by `find_best_matching_hit` points into the
scanned list. -/
theorem find_best_matching_hit_index_lt (ev l : List Hit) (d : ℚ) (i : ℕ)
    (hres : find_best_matching_hit ev l = some (d, i)) : i < l.length := by
  have := find_best_aux_index_lt ev l 0 none d i (by intro d0 j0 h0; cases h0) hres
  simpa using this

/-- Helper: a list is a permutation of its `i`-th element consed onto the list
with that position erased. -/
theorem perm_cons_eraseIdx_of_getElem? (l : List Hit) :
    ∀ (i : ℕ) (x : Hit), l[i]? = some x → l.Perm (x :: l.eraseIdx i) := by
  induction l with
  | nil => intro i x h; simp at h
  | cons y ys ih =>
      intro i x h
      cases i with
      | zero =>
          simp at h
          subst h
          simp [List.eraseIdx]
      | succ n =>
          simp only [List.getElem?_cons_succ] at h
          have hperm := ih n x h
          show (y :: ys).Perm (x :: y :: ys.eraseIdx n)
          exact (hperm.cons y).trans (List.Perm.swap x y (ys.eraseIdx n))

/-- Helper: `match_scans` conserves hit occurrences: for every hit value, the
occurrences in the grown event plus those left in the updated scan lists equal
the occurrences in the starting event plus those in the original scan lists. -/
theorem match_scans_count (hh : Hit) :
    ∀ (later : List (List Hit)) (ev : List Hit),
    (match_scans ev later).1.count hh +
      (((match_scans ev later).2).map (List.count hh)).sum =
    ev.count hh + (later.map (List.count hh)).sum := by
  intro later
  induction later with
  | nil => intro ev; simp [match_scans]
  | cons l ls ih =>
      intro ev
      rcases hfb : find_best_matching_hit ev l with _ | ⟨d, i⟩
      · simp only [match_scans, hfb, List.map_cons, List.sum_cons]
        have := ih ev
        omega
      · by_cases hd : d < 50
        · simp only [match_scans, hfb, if_pos hd, List.map_cons, List.sum_cons]
          have hi : i < l.length := find_best_matching_hit_index_lt ev l d i hfb
          have hx : l[i]? = some (l.getD i zeroHit) := by
            rw [List.getD_eq_getElem l zeroHit hi]
            exact List.getElem?_eq_getElem hi
          have hcnt : l.count hh = ((l.getD i zeroHit) :: l.eraseIdx i).count hh :=
            (perm_cons_eraseIdx_of_getElem? l i _ hx).count_eq hh
          have happ : (ev ++ [l.getD i zeroHit]).count hh =
              ev.count hh + [l.getD i zeroHit].count hh := List.count_append hh ev _
          have hcons : ((l.getD i zeroHit) :: l.eraseIdx i).count hh =
              [l.getD i zeroHit].count hh + (l.eraseIdx i).count hh := by
            rw [show (l.getD i zeroHit) :: l.eraseIdx i = [l.getD i zeroHit] ++ l.eraseIdx i
              from rfl, List.count_append]
          have := ih (ev ++ [l.getD i zeroHit])
          omega
        · simp only [match_scans, hfb, if_neg hd, List.map_cons, List.sum_cons]
          have := ih ev
          omega

/-- Helper: the scan lists returned by `evaluate_candidate_event` are those
produced by its matching loop, whether or not an event is emitted. -/
theorem evaluate_candidate_event_snd (starting_hit : Hit) (starting_scan : Scan)
    (later : List (List Hit)) (offs : List Scan) :
    (evaluate_candidate_event starting_hit starting_scan later offs).2 =
      (match_scans [starting_hit] later).2 := by
  rw [evaluate_candidate_event]
  split_ifs <;> rfl

/-- Helper: an event emitted by `evaluate_candidate_event` carries the hits
collected by the matching loop, has more than one of them, and was seen in no
OFF scan. -/
theorem evaluate_candidate_event_fst_some (starting_hit : Hit) (starting_scan : Scan)
    (later : List (List Hit)) (offs : List Scan) (e : Event)
    (he : (evaluate_candidate_event starting_hit starting_scan later offs).1 = some e) :
    e.hits = (match_scans [starting_hit] later).1 ∧
    1 < e.hits.length ∧ count_event_in_off_scans e.hits offs = 0 := by
  rw [evaluate_candidate_event] at he
  split_ifs at he with hcond
  simp only [Option.some.injEq] at he
  subst he
  exact ⟨rfl, hcond.1, hcond.2⟩

/-- Helper: every event collected by `process_seeds` has more than one hit and
was seen in no OFF scan. -/
theorem process_seeds_mem (starting_scan : Scan) (offs : List Scan) :
    ∀ (seeds : List Hit) (later : List (List Hit)) (e : Event),
    e ∈ (process_seeds starting_scan offs seeds later).1 →
    1 < e.hits.length ∧ count_event_in_off_scans e.hits offs = 0 := by
  intro seeds
  induction seeds with
  | nil => intro later e he; simp [process_seeds] at he
  | cons x xs ih =>
      intro later e he
      simp only [process_seeds, List.mem_append] at he
      rcases he with he | he
      · have hsome : (evaluate_candidate_event x starting_scan later offs).1 = some e := by
          rcases hopt : (evaluate_candidate_event x starting_scan later offs).1 with _ | ev
          · rw [hopt] at he; cases he
          · rw [hopt] at he
            simp at he
            rw [he]
        exact (evaluate_candidate_event_fst_some x starting_scan later offs e hsome).2
      · exact ih _ e he

/-- Helper: every event returned by `search_scans` has more than one hit and
was seen in no OFF scan. -/
theorem search_scans_mem (offs : List Scan) :
    ∀ (scans : List Scan) (lists : List (List Hit)) (e : Event),
    e ∈ search_scans offs scans lists →
    1 < e.hits.length ∧ count_event_in_off_scans e.hits offs = 0 := by
  intro scans
  induction scans with
  | nil => intro lists e he; cases lists <;> simp [search_scans] at he
  | cons s ss ih =>
      intro lists e he
      cases lists with
      | nil => simp [search_scans] at he
      | cons l ls =>
          simp only [search_scans, List.mem_append] at he
          rcases he with he | he
          · exact process_seeds_mem s offs l ls e he
          · exact ih _ e he

/-- Helper: `process_seeds` consumes hit occurrences: the occurrences of any
hit across all collected events plus those left in the updated scan lists are
bounded by its occurrences among the seeds plus the original scan lists. -/
theorem process_seeds_count (hh : Hit) (starting_scan : Scan) (offs : List Scan) :
    ∀ (seeds : List Hit) (later : List (List Hit)),
    (((process_seeds starting_scan offs seeds later).1).map
        (fun e => e.hits.count hh)).sum +
      (((process_seeds starting_scan offs seeds later).2).map (List.count hh)).sum ≤
    seeds.count hh + (later.map (List.count hh)).sum := by
  intro seeds
  induction seeds with
  | nil => intro later; simp [process_seeds]
  | cons x xs ih =>
      intro later
      simp only [process_seeds, List.map_append, List.sum_append]
      have hms := match_scans_count hh later [x]
      have hsnd := evaluate_candidate_event_snd x starting_scan later offs
      have hxcons : (x :: xs).count hh = [x].count hh + xs.count hh := by
        rw [show x :: xs = [x] ++ xs from rfl, List.count_append]
      have hih := ih (evaluate_candidate_event x starting_scan later offs).2
      rcases hopt : (evaluate_candidate_event x starting_scan later offs).1 with _ | e
      · simp only [Option.toList_none, List.map_nil, List.sum_nil]
        rw [hsnd] at hih ⊢
        omega
      · simp only [Option.toList_some, List.map_cons, List.map_nil, List.sum_cons, List.sum_nil]
        have hhits := (evaluate_candidate_event_fst_some x starting_scan later offs e hopt).1
        rw [hhits]
        rw [hsnd] at hih ⊢
        omega

/-- Helper: the events returned by `search_scans` consume hit occurrences from
the given per-scan lists. -/
theorem search_scans_count (hh : Hit) (offs : List Scan) :
    ∀ (scans : List Scan) (lists : List (List Hit)),
    ((search_scans offs scans lists).map (fun e => e.hits.count hh)).sum ≤
      (lists.map (List.count hh)).sum := by
  intro scans
  induction scans with
  | nil => intro lists; cases lists <;> simp [search_scans]
  | cons s ss ih =>
      intro lists
      cases lists with
      | nil => simp [search_scans]
      | cons l ls =>
          simp only [search_scans, List.map_append, List.sum_append, List.map_cons,
            List.sum_cons]
          have h1 := process_seeds_count hh s offs l ls
          have h2 := ih (process_seeds s offs l ls).2
          omega

/-- Helper: the number of events containing a hit is bounded by the total
occurrence count of that hit across the events. -/
theorem countP_mem_le_sum_count (hh : Hit) (evs : List Event) :
    evs.countP (fun e => decide (hh ∈ e.hits)) ≤
      (evs.map (fun e => e.hits.count hh)).sum := by
  induction evs with
  | nil => simp
  | cons e es ih =>
      rw [List.countP_cons]
      simp only [List.map_cons, List.sum_cons]
      by_cases hmem : hh ∈ e.hits
      · have hpos : 0 < e.hits.count hh := List.count_pos_iff_mem.mpr hmem
        rw [decide_eq_true hmem, if_pos rfl]
        omega
      · rw [decide_eq_false hmem, if_neg (by simp)]
        omega

/-- C3: every event returned by `event_search` contains strictly more than one
hit; its average summed distance to every hit of every OFF scan is at least
`50`; and every individual hit occurs in at most one returned event (the number
of events containing a hit value is bounded by that value's occurrence count in
the ON scans' hit lists, so a hit occurring once is in at most one event). -/
theorem event_search_invariants (c : Cadence) :
    (∀ e ∈ event_search c, 1 < e.hits.length) ∧
    (∀ e ∈ event_search c, ∀ s ∈ extract_off_scans c, ∀ o ∈ s.hits,
      50 ≤ (e.hits.map (fun m => distance_func o m)).sum / (e.hits.length : ℚ)) ∧
    (∀ hh : Hit, (event_search c).countP (fun e => decide (hh ∈ e.hits)) ≤
      ((c.observations.headD ⟨[]⟩).scans.map Scan.hits).flatten.count hh) := by
  refine ⟨?_, ?_, ?_⟩
  · intro e he
    exact (search_scans_mem (extract_off_scans c) _ _ e he).1
  · intro e he s hs o ho
    have hzero := (search_scans_mem (extract_off_scans c) _ _ e he).2
    rw [count_event_in_off_scans] at hzero
    have hmem : o ∈ ((extract_off_scans c).map Scan.hits).flatten :=
      List.mem_flatten.mpr ⟨s.hits, List.mem_map_of_mem Scan.hits hs, ho⟩
    have := List.countP_eq_zero.mp hzero o hmem
    simp only [decide_eq_true_eq] at this
    exact not_lt.mp this
  · intro hh
    have h1 := countP_mem_le_sum_count hh (event_search c)
    have h2 := search_scans_count hh (extract_off_scans c)
      (c.observations.headD ⟨[]⟩).scans
      ((c.observations.headD ⟨[]⟩).scans.map Scan.hits)
    rw [List.count_flatten]
    calc (event_search c).countP (fun e => decide (hh ∈ e.hits)) ≤
        ((event_search c).map (fun e => e.hits.count hh)).sum := h1
      _ ≤ (((c.observations.headD ⟨[]⟩).scans.map Scan.hits).map (List.count hh)).sum := h2
      _ = _ := rfl

/-- Witness for the C3 theorem at a concrete (empty) cadence. -/
theorem event_search_invariants_witness :
    (∀ e ∈ event_search ⟨[]⟩, 1 < e.hits.length) ∧
    (∀ e ∈ event_search ⟨[]⟩, ∀ s ∈ extract_off_scans ⟨[]⟩, ∀ o ∈ s.hits,
      50 ≤ (e.hits.map (fun m => distance_func o m)).sum / (e.hits.length : ℚ)) ∧
    (∀ hh : Hit, (event_search ⟨[]⟩).countP (fun e => decide (hh ∈ e.hits)) ≤
      (((Cadence.mk []).observations.headD ⟨[]⟩).scans.map Scan.hits).flatten.count hh) :=
  event_search_invariants ⟨[]⟩

end Bliss
